import Mathlib

/-!
Verification of the request-orchestration core of the `advanced-chat`
repository: provider/model selection with fallback, the step-bounded
tool-calling loop, conversation persistence, the card-generation JSON
extraction, and the response-format / tool-subset selection.

Sources embedded:
  * `src/app/api/chat/route.ts`          (main chat endpoint)
  * `src/app/api/chat/external/route.ts` (single-shot external endpoint)
  * `lib/external-completion.ts`         (external-completion helper)
  * the card-generation endpoint (`/api/card`)
External runtime primitives (the AI SDK loop, `JSON.parse`,
`crypto.randomUUID`, the message store) are modelled from the spec where
their code is not part of the repository; each such definition carries a
doc comment saying so.
-/

set_option maxRecDepth 4096

/-- Message role, as used by both API routes (`user` / `assistant`). -/
inductive Role where
  | user
  | assistant
deriving DecidableEq, Repr

/-- One entry of the per-turn step log
(`stepLog: Array<{phase, toolName, detail, nextStep?, ts}>`,
`src/app/api/chat/route.ts` line 202). -/
structure StepEntry where
  phase : Bool
  toolName : String
  detail : String
  nextStep : Option String
  ts : Nat
deriving DecidableEq, Repr

/-- A message content part: text, tool call, tool result, or the
`step-log` part attached by `onFinish` in the main chat route. -/
inductive MsgPart where
  | text (s : String)
  | toolCall (name : String) (args : String)
  | toolResult (name : String) (payload : String)
  | stepLogPart (steps : List StepEntry)
deriving DecidableEq, Repr

/-- Prefix test on character lists (structural, kernel-reducible). -/
def chPrefix : List Char → List Char → Bool
  | [], _ => true
  | _ :: _, [] => false
  | p :: ps, c :: cs => p = c && chPrefix ps cs

/-- Infix (substring) test on character lists. -/
def chInfix (pat : List Char) : List Char → Bool
  | [] => pat.isEmpty
  | c :: cs => chPrefix pat (c :: cs) || chInfix pat cs

/-- Substring containment, embedding JavaScript `String.prototype.includes`. -/
def strContains (s pat : String) : Bool :=
  chInfix pat.data s.data

/-- Split a character list on a separator character (structural
embedding of the splitting used by the UUID format check). -/
def chSplitOn (sep : Char) : List Char → List (List Char)
  | [] => [[]]
  | c :: cs =>
      let rest := chSplitOn sep cs
      if c = sep then
        [] :: rest
      else
        match rest with
        | [] => [[c]]
        | g :: gs => (c :: g) :: gs

/-- ASCII hex digit test, for the UUID format check. -/
def isHexDigit (c : Char) : Bool :=
  c.isDigit || (Char.ofNat 97 ≤ c && c ≤ Char.ofNat 102) ||
    (Char.ofNat 65 ≤ c && c ≤ Char.ofNat 70)

/-- The canonical ID format check, embedding
`UUID_REGEX = /^[0-9a-f]{8}-[0-9a-f]{4}-[0-9a-f]{4}-[0-9a-f]{4}-[0-9a-f]{12}$/i`
(`src/app/api/chat/route.ts` line 229): five dash-separated groups of hex
digits with lengths 8, 4, 4, 4, 12, case-insensitive. -/
def isUUID (s : String) : Bool :=
  match chSplitOn '-' s.data with
  | [a, b, c, d, e] =>
      a.length = 8 && b.length = 4 && c.length = 4 && d.length = 4 &&
      e.length = 12 &&
      (a.all isHexDigit) && (b.all isHexDigit) &&
      (c.all isHexDigit) && (d.all isHexDigit) &&
      (e.all isHexDigit)
  | _ => false

example : isUUID "123e4567-e89b-12d3-a456-426614174000" = true := by decide
example : isUUID "not-a-uuid" = false := by decide
example : strContains "nomic-embed-text" "embed" = true := by decide
example : strContains "llama3.2" "embed" = false := by decide

/-- The left-brace, right-brace and backtick characters (named to keep
string processing free of literal brace characters). -/
def lbraceChar : Char := Char.ofNat 123

/-- The right-brace character. -/
def rbraceChar : Char := Char.ofNat 125

/-- The backtick character of Markdown code fences. -/
def btChar : Char := Char.ofNat 96

/-- ASCII whitespace, for the embedding of JavaScript `trim` and the
regex class `\s`. -/
def isWSChar (c : Char) : Bool :=
  c = ' ' || c = Char.ofNat 10 || c = Char.ofNat 9 || c = Char.ofNat 13

/-- Drop leading whitespace characters. -/
def dropWSL (l : List Char) : List Char := l.dropWhile isWSChar

/-- Trim whitespace from both ends of a character list. -/
def trimChars (l : List Char) : List Char :=
  ((dropWSL l).reverse.dropWhile isWSChar).reverse

/-- Embedding of JavaScript `String.prototype.trim`. -/
def strTrim (s : String) : String := ⟨trimChars s.data⟩

/-- Embedding of JavaScript `String.prototype.toUpperCase` (ASCII). -/
def strUpper (s : String) : String := ⟨s.data.map Char.toUpper⟩

/-! ## Provider / model selection (`route.ts` lines 38-90,
`external/route.ts` lines 66-135, `lib/external-completion.ts`) -/

/-- The two local inference providers distinguished by the
`x-local-provider` header. -/
inductive LocalProvider where
  | ollama
  | lmstudio
deriving DecidableEq, Repr

/-- The "thinking-capable" model-name fragments
(`route.ts` line 45, identical list in `lib/external-completion.ts`). -/
def thinkingModels : List String :=
  ["deepseek-r1", "deepseek-v3", "deepseek-v3.1", "qwen3", "qwq",
   "phi4-reasoning", "phi-4-reasoning", "cogito"]

/-- Preferred local model-name substrings of the main chat route
(`route.ts` line 46) and of the external-completion helper
(`lib/external-completion.ts` line 32). -/
def chatPreferredModels : List String :=
  ["deepseek-r1", "qwen3", "phi4-reasoning", "cogito", "llama3.1",
   "gemma3:4b", "gemma3", "llama3.2", "llama3", "qwen2.5", "codestral"]

/-- Preferred local model-name substrings of the single-shot external
route (`external/route.ts` line 99). -/
def externalPreferredModels : List String :=
  ["llama3.2", "llama3", "qwen2.5", "codestral"]

/-- Lowercasing used by the thinking-capability check
(`selectedModelName.toLowerCase().includes(t.toLowerCase())`). -/
def strLower (s : String) : String :=
  ⟨s.data.map Char.toLower⟩

/-- `route.ts` line 77: the chosen model name supports extended
reasoning iff it contains a thinking-capable fragment
(case-insensitive). -/
def supportsThinkingFor (name : String) : Bool :=
  thinkingModels.any (fun t => strContains (strLower name) (strLower t))

/-- The LM Studio listing filter of `route.ts` line 64 /
`external/route.ts` line 90: keep a model name iff it does not contain
`embed`, `embedding` or `nomic`. -/
def embedOkName (n : String) : Bool :=
  !(strContains n "embed" || strContains n "embedding" ||
    strContains n "nomic")

/-- Core model choice from an effective (possibly already filtered)
listing (`route.ts` lines 67-75): empty list means the route throws
`No models` (surfaced here as `none`); the user-requested model wins on
an exact-name hit; otherwise the first preference substring (in
preference order) that some listed model contains picks the first such
model; otherwise the first listed model. -/
def selectFromModels (userPreferred : Option String)
    (preferred : List String) (models : List String) : Option String :=
  match models with
  | [] => none
  | m0 :: _ =>
      some
        (match userPreferred with
         | some u =>
             if models.contains u then u
             else
               match preferred.findSome?
                   (fun p => models.find? (fun m => strContains m p)) with
               | some m => m
               | none => m0
         | none =>
             match preferred.findSome?
                 (fun p => models.find? (fun m => strContains m p)) with
             | some m => m
             | none => m0)

/-- Local model selection as the source performs it (`route.ts`
lines 62-75, `external/route.ts` lines 88-102): the embedding-name
filter is applied only when the provider is LM Studio; the Ollama
listing (`data.models`) is used unfiltered. -/
def effectiveModels (provider : LocalProvider) (models : List String) :
    List String :=
  match provider with
  | .lmstudio => models.filter embedOkName
  | .ollama => models

/-- Local model selection as the source performs it, continued: core
choice applied to the provider's effective listing. -/
def selectLocalModel (provider : LocalProvider)
    (userPreferred : Option String) (preferred : List String)
    (models : List String) : Option String :=
  selectFromModels userPreferred preferred (effectiveModels provider models)

/-- The selection procedure as the claim words it (spec §4.1 step 1):
"filter out embedding-only models, then pick the user-requested model if
it is present in the list; otherwise pick the first model matching an
ordered list of preferred model-name substrings; otherwise fall back to
the first listed model" — the filter applied to every provider's
listing. -/
def claimSelectLocalModel (userPreferred : Option String)
    (preferred : List String) (models : List String) : Option String :=
  selectFromModels userPreferred preferred (models.filter embedOkName)

example :
    selectLocalModel .ollama none chatPreferredModels
      ["nomic-embed-text", "mistral-foo"] = some "nomic-embed-text" := by
  decide

example :
    claimSelectLocalModel none chatPreferredModels
      ["nomic-embed-text", "mistral-foo"] = some "mistral-foo" := by
  decide

/-- A resolved model backend handle. A local handle wraps the chosen
provider and model name; `openaiModel` is the paid-credential hosted
model (`openai("gpt-5.2-2025-12-11")`); `gatewayModel` is the
gateway-style remote alias string (`"openai/gpt-5.2-2025-12-11"`). -/
inductive ModelHandle where
  | localModel (provider : LocalProvider) (name : String)
  | openaiModel (name : String)
  | gatewayModel (remoteAlias : String)
deriving DecidableEq, Repr

/-- A hosted (non-local) handle. -/
def ModelHandle.isHosted : ModelHandle → Bool
  | .localModel _ _ => false
  | .openaiModel _ => true
  | .gatewayModel _ => true

/-- Outcome of provider resolution: either a usable model handle with
its human-readable label and reasoning flag, or — only on the single
shot external route — an early typed JSON error response. -/
inductive Resolution where
  | resolved (handle : ModelHandle) (modelInfo : String)
      (supportsThinking : Bool)
  | errorResponse (status : Nat) (error : String)
deriving DecidableEq, Repr

/-- The outcome of probing the local provider's model-listing endpoint:
`none` models every throwing path (network error, 3s timeout, non-ok
HTTP status); `some names` models a parsed listing (for LM Studio the
raw `data.data[].id` values, for Ollama the `data.models[].name`
values). -/
abbrev ProbeOutcome : Type := Option (List String)

/-- Provider label, `route.ts` line 56. -/
def providerName : LocalProvider → String
  | .ollama => "Ollama"
  | .lmstudio => "LM Studio"

/-- The main chat route's hosted fallback (`route.ts` lines 84-85 and
88-89): the paid-credential OpenAI model when `OPENAI_API_KEY` is set,
otherwise the gateway alias string. -/
def chatHostedFallback (hasOpenAIKey : Bool) (suffix : String) :
    Resolution :=
  if hasOpenAIKey then
    .resolved (.openaiModel "gpt-5.2-2025-12-11")
      ("OpenAI (gpt-5.2) - " ++ suffix) false
  else
    .resolved (.gatewayModel "openai/gpt-5.2-2025-12-11")
      ("Vercel AI Gateway (gpt-5.2) - " ++ suffix) false

/-- Provider resolution of the main chat route (`route.ts`
lines 52-90). In self-hosted mode with local inference enabled, the
probe outcome drives local selection; every failing path (probe throw,
empty or fully filtered listing) falls back to a hosted model. -/
def chatResolve (isSelfHosted localEnabled hasOpenAIKey : Bool)
    (provider : LocalProvider) (userPreferred : Option String)
    (probe : ProbeOutcome) : Resolution :=
  if isSelfHosted && localEnabled then
    match probe with
    | some names =>
        match selectLocalModel provider userPreferred chatPreferredModels
            names with
        | some n =>
            let st := supportsThinkingFor n
            .resolved (.localModel provider n)
              (providerName provider ++ " (" ++ n ++ ")" ++
                (if st then " [Reasoning]" else "") ++ " - Self-Hosted")
              st
        | none => chatHostedFallback hasOpenAIKey "Self-Hosted Fallback"
    | none => chatHostedFallback hasOpenAIKey "Self-Hosted Fallback"
  else
    chatHostedFallback hasOpenAIKey "Valyu Mode"

/-- Provider resolution of the single-shot external route
(`external/route.ts` lines 78-135). The local branch runs only when the
body's `model` field is `"ollama"`; on local failure without an OpenAI
key the route returns a typed 500 JSON error instead of a handle. -/
def externalResolve (isSelfHosted localEnabled hasOpenAIKey : Bool)
    (modelParam : String) (provider : LocalProvider)
    (userPreferred : Option String) (probe : ProbeOutcome) : Resolution :=
  if isSelfHosted && localEnabled && modelParam = "ollama" then
    match probe with
    | some names =>
        match selectLocalModel provider userPreferred
            externalPreferredModels names with
        | some n =>
            .resolved (.localModel provider n)
              (providerName provider ++ " (" ++ n ++ ") - Self-Hosted")
              false
        | none =>
            if !hasOpenAIKey then
              .errorResponse 500
                "Local model unavailable and OpenAI API key not configured"
            else
              .resolved (.openaiModel "gpt-5.2-2025-12-11")
                "OpenAI (gpt-5.2) - Fallback" false
    | none =>
        if !hasOpenAIKey then
          .errorResponse 500
            "Local model unavailable and OpenAI API key not configured"
        else
          .resolved (.openaiModel "gpt-5.2-2025-12-11")
            "OpenAI (gpt-5.2) - Fallback" false
  else
    if !hasOpenAIKey then
      .errorResponse 500 "OpenAI API key is required"
    else
      .resolved (.openaiModel "gpt-5.2-2025-12-11") "OpenAI (gpt-5.2)"
        false

/-- Provider resolution of the external-completion helper
(`lib/external-completion.ts` lines 36-56): OpenAI when local is
disabled or the deployment is not self-hosted; otherwise probe Ollama
and fall back to OpenAI on any failure. -/
def helperResolve (disableLocal isSelfHosted : Bool)
    (probe : ProbeOutcome) : Resolution :=
  if disableLocal || !isSelfHosted then
    .resolved (.openaiModel "gpt-5.2-2025-12-11") "" false
  else
    match probe with
    | some names =>
        match selectLocalModel .ollama none chatPreferredModels names with
        | some n => .resolved (.localModel .ollama n) "" false
        | none =>
            .resolved (.openaiModel "gpt-5.2-2025-12-11") "" false
    | none => .resolved (.openaiModel "gpt-5.2-2025-12-11") "" false

/-! ## The step-bounded reasoning loop -/

/-- One model reasoning round's output: produced text and the tool
calls requested in that round. -/
structure ModelStep where
  text : String
  toolCalls : List String
deriving DecidableEq, Repr

/-- Modelled from the spec: the AI SDK `streamText` / `generateText`
multi-round loop with `stopWhen: stepCountIs(cap)` (the SDK is an
external dependency, not part of this repository; spec §4.2). Each
round the model is given the context and may produce text and request
tools; tool results are appended to the context and the loop continues
until a round requests no tools or the round cap is exhausted, in which
case the text accumulated so far is returned. Returns the final text
and the number of model-reasoning rounds executed. -/
def runLoop (model : List String → ModelStep) (exec : String → String) :
    Nat → List String → String → String × Nat
  | 0, _, acc => (acc, 0)
  | fuel + 1, ctx, acc =>
      let step := model ctx
      let acc2 := acc ++ step.text
      if step.toolCalls.isEmpty then (acc2, 1)
      else
        let ctx2 := ctx ++ step.toolCalls.map exec
        let r := runLoop model exec fuel ctx2 acc2
        (r.1, r.2 + 1)

/-- The round cap of the main chat endpoint:
`stopWhen: stepCountIs(10)` (`route.ts` line 209). -/
def chatRouteStepCap : Nat := 10

/-- The round cap of the single-shot external endpoint:
`stopWhen: stepCountIs(15)` (`external/route.ts` line 243). -/
def externalRouteStepCap : Nat := 15

/-- The round cap of the external-completion helper:
`stopWhen: stepCountIs(10)` (`lib/external-completion.ts` line 68). -/
def externalCompletionStepCap : Nat := 10

theorem runLoop_rounds_le (model : List String → ModelStep)
    (exec : String → String) :
    ∀ (fuel : Nat) (ctx : List String) (acc : String),
      (runLoop model exec fuel ctx acc).2 ≤ fuel := by
  intro fuel
  induction fuel with
  | zero => intro ctx acc; simp [runLoop]
  | succ n ih =>
      intro ctx acc
      simp only [runLoop]
      cases h : (model ctx).toolCalls.isEmpty with
      | true => simp [h]
      | false =>
          simp only [h, Bool.false_eq_true, if_false]
          have := ih (ctx ++ (model ctx).toolCalls.map exec)
            (acc ++ (model ctx).text)
          omega

theorem runLoop_acc_prefix (model : List String → ModelStep)
    (exec : String → String) :
    ∀ (fuel : Nat) (ctx : List String) (acc : String),
      ∃ s, (runLoop model exec fuel ctx acc).1 = acc ++ s := by
  intro fuel
  induction fuel with
  | zero => intro ctx acc; exact ⟨"", by simp [runLoop]⟩
  | succ n ih =>
      intro ctx acc
      simp only [runLoop]
      by_cases h : (model ctx).toolCalls.isEmpty
      · exact ⟨(model ctx).text, by simp [h]⟩
      · obtain ⟨s, hs⟩ := ih (ctx ++ (model ctx).toolCalls.map exec)
          (acc ++ (model ctx).text)
        refine ⟨(model ctx).text ++ s, ?_⟩
        simp [h, hs, String.append_assoc]

theorem runLoop_stub_exhausts (model : List String → ModelStep)
    (exec : String → String)
    (hstub : ∀ ctx, (model ctx).toolCalls ≠ []) :
    ∀ (fuel : Nat) (ctx : List String) (acc : String),
      (runLoop model exec fuel ctx acc).2 = fuel := by
  intro fuel
  induction fuel with
  | zero => intro ctx acc; simp [runLoop]
  | succ n ih =>
      intro ctx acc
      have h : (model ctx).toolCalls.isEmpty = false := by
        cases hh : (model ctx).toolCalls with
        | nil => exact absurd hh (hstub ctx)
        | cons a l => simp [List.isEmpty]
      simp [runLoop, h, ih]

/-! ## Conversation persistence -/

/-- A message as persisted by `db.saveChatMessages`: id, role, content
parts, and the optional processing-time measurement (assistant only). -/
structure PMsg where
  id : String
  role : Role
  content : List MsgPart
  processingTimeMs : Option Nat
deriving DecidableEq, Repr

/-- Modelled from the spec: the conversation store of `@/lib/db`
(`getChatMessages` / `saveChatMessages`), whose implementation is not
part of this repository. Spec §5: "each session's store operations are
read-then-append with last-writer-wins for the append" — both routes
read the stored list and write back a full new list, so `save` replaces
the session's message list (append semantics would duplicate the
re-saved history on every turn). The store is a single session's
ordered message list. -/
def saveChatMessages (_store msgs : List PMsg) : List PMsg := msgs

/-- Modelled from the spec: `db.getChatMessages` returns the session's
persisted messages in order (spec §4.4 `load`). -/
def getChatMessages (store : List PMsg) : List PMsg := store

/-- The user-turn message built by the external route
(`external/route.ts` lines 270-273). -/
def externalUserPMsg (freshU userText : String) : PMsg :=
  { id := freshU, role := .user, content := [.text userText],
    processingTimeMs := none }

/-- The assistant-turn message built by the external route
(`external/route.ts` lines 283-288). -/
def externalAssistantPMsg (freshA responseText : String) (ptime : Nat) :
    PMsg :=
  { id := freshA, role := .assistant, content := [.text responseText],
    processingTimeMs := some ptime }

/-- The store after the external route's user-turn save
(`external/route.ts` lines 269-278): the pre-existing messages are read
once into `existingMessages` and the user turn is appended. -/
def externalStoreAfterUserSave (store0 : List PMsg)
    (freshU userText : String) : List PMsg :=
  let existing := getChatMessages store0
  saveChatMessages store0 (existing ++ [externalUserPMsg freshU userText])

/-- The full persistence block of the external route
(`external/route.ts` lines 264-297), as the source performs it: the
second save builds `allMessages` from the same `existingMessages`
constant that was read before the user-turn save — not from the store
state the user-turn save produced. -/
def externalPersist (store0 : List PMsg)
    (freshU userText freshA responseText : String) (ptime : Nat) :
    List PMsg :=
  let existing := getChatMessages store0
  let store1 :=
    saveChatMessages store0 (existing ++ [externalUserPMsg freshU userText])
  let allMessages :=
    existing ++ [externalAssistantPMsg freshA responseText ptime]
  saveChatMessages store1 allMessages

/-! ## The main route's `onFinish` persistence mapping
(`route.ts` lines 224-261) -/

/-- A message as the AI SDK hands it to `onFinish` (and as the client
sends it): the untyped `parts` / `content` shape of the source is
modelled as one optional parts array plus the two legacy content
alternatives the source probes in order. -/
structure UIMsg where
  id : String
  role : Role
  parts : Option (List MsgPart)
  contentStr : Option String
  contentArr : Option (List MsgPart)
deriving DecidableEq, Repr

/-- Content extraction of `route.ts` lines 233-240: prefer the `parts`
array, else wrap a string `content` as a single text part, else an
array `content`, else empty. -/
def contentToSave (m : UIMsg) : List MsgPart :=
  match m.parts with
  | some l => l
  | none =>
      match m.contentStr with
      | some s => [.text s]
      | none =>
          match m.contentArr with
          | some l => l
          | none => []

/-- One saved message of the `onFinish` map (`route.ts` lines 231-252):
`i` is the message's index, `total` the length of `allMessages`. The
step-log part is appended only on the last-index assistant message and
only when the step log is non-empty; a message id failing the UUID
format check is replaced by a freshly generated one. -/
def saveOne (stepLog : List StepEntry) (ptime : Nat)
    (fresh : Nat → String) (total i : Nat) (m : UIMsg) : PMsg :=
  let c0 := contentToSave m
  let isLastAssistant := m.role = .assistant ∧ i = total - 1
  let c1 :=
    if isLastAssistant ∧ 0 < stepLog.length then c0 ++ [.stepLogPart stepLog]
    else c0
  { id := if isUUID m.id then m.id else fresh i,
    role := m.role,
    content := c1,
    processingTimeMs := if isLastAssistant then some ptime else none }

/-- Index-carrying map underlying `allMessages.map((message, index) => ...)`. -/
def mapToSaveGo (stepLog : List StepEntry) (ptime : Nat)
    (fresh : Nat → String) (total : Nat) : Nat → List UIMsg → List PMsg
  | _, [] => []
  | i, m :: rest =>
      saveOne stepLog ptime fresh total i m ::
        mapToSaveGo stepLog ptime fresh total (i + 1) rest

/-- The `messagesToSave` list built by `onFinish`
(`route.ts` lines 231-252). -/
def onFinishMessagesToSave (allMessages : List UIMsg)
    (stepLog : List StepEntry) (ptime : Nat) (fresh : Nat → String) :
    List PMsg :=
  mapToSaveGo stepLog ptime fresh allMessages.length 0 allMessages

theorem mapToSaveGo_length (stepLog : List StepEntry) (ptime : Nat)
    (fresh : Nat → String) (total : Nat) :
    ∀ (i : Nat) (l : List UIMsg),
      (mapToSaveGo stepLog ptime fresh total i l).length = l.length := by
  intro i l
  induction l generalizing i with
  | nil => simp [mapToSaveGo]
  | cons m rest ih => simp [mapToSaveGo, ih]

theorem mapToSaveGo_getElem? (stepLog : List StepEntry) (ptime : Nat)
    (fresh : Nat → String) (total : Nat) :
    ∀ (i k : Nat) (l : List UIMsg),
      (mapToSaveGo stepLog ptime fresh total i l)[k]? =
        (l[k]?).map (saveOne stepLog ptime fresh total (i + k)) := by
  intro i k l
  induction l generalizing i k with
  | nil => simp [mapToSaveGo]
  | cons m rest ih =>
      cases k with
      | zero => simp [mapToSaveGo]
      | succ k2 =>
          simp only [mapToSaveGo, List.getElem?_cons_succ]
          rw [ih (i + 1) k2]
          have : i + 1 + k2 = i + (k2 + 1) := by omega
          rw [this]

theorem onFinishMessagesToSave_getElem? (allMessages : List UIMsg)
    (stepLog : List StepEntry) (ptime : Nat) (fresh : Nat → String)
    (k : Nat) :
    (onFinishMessagesToSave allMessages stepLog ptime fresh)[k]? =
      (allMessages[k]?).map
        (saveOne stepLog ptime fresh allMessages.length k) := by
  have h := mapToSaveGo_getElem? stepLog ptime fresh allMessages.length
    0 k allMessages
  simpa [onFinishMessagesToSave] using h

/-! ## Response format and tool subsets -/

/-- Modelled from the spec: the Tool Registry `financeTools` of
`@/lib/tools` (not part of this repository). Spec §4.3 and the routes'
system prompts list its members; the main route's destructuring
`const { createChart, ...toolsForRequest } = financeTools` (`route.ts`
line 125) witnesses that `createChart` is a member. Only tool names
matter to the claims. -/
def financeToolNames : List String :=
  ["financeSearch", "secSearch", "economicsSearch", "patentSearch",
   "financeJournalSearch", "polymarketSearch", "webSearch",
   "codeExecution", "createCSV", "createChart"]

/-- Tool subset of the main chat route (`route.ts` line 125): the
registry minus `createChart`, used for both the chat and the cards
format. -/
def chatRouteTools : List String :=
  financeToolNames.filter (fun n => n ≠ "createChart")

/-- Tool subset of the single-shot external route
(`external/route.ts` line 239): `tools: financeTools`, the full
registry. -/
def externalRouteTools : List String := financeToolNames

/-- Tool subset of the external-completion helper
(`lib/external-completion.ts` line 58): the registry minus
`createChart`. -/
def externalCompletionTools : List String :=
  financeToolNames.filter (fun n => n ≠ "createChart")

/-- The requested response-format token (spec §4.5): absent/`"chat"`
default, `"cards"`, or the single-shot external entry point. -/
inductive ResponseFormat where
  | chat
  | cards
  | externalSingleShot
deriving DecidableEq, Repr

/-- The fixed system instructions. Their full prompt text
(`route.ts` lines 127-198, `external/route.ts` lines 188-224) is inert
string data for every claim, so the instructions are embedded as an
enumeration of the distinct prompts the source selects between. -/
inductive SystemInstruction where
  | chatInstruction
  | cardsInstruction
  | externalInstruction
deriving DecidableEq, Repr

/-- The response-format selection: format token to fixed system
instruction and fixed tool subset (`route.ts` lines 15, 125, 200;
`external/route.ts` lines 188, 239). -/
def formatSelect : ResponseFormat → SystemInstruction × List String
  | .chat => (.chatInstruction, chatRouteTools)
  | .cards => (.cardsInstruction, chatRouteTools)
  | .externalSingleShot => (.externalInstruction, externalRouteTools)

/-! ## Request pipelines -/

/-- A persistence / external-call effect performed by a route, in
execution order. -/
inductive Effect where
  | probeLocalProvider
  | modelCall
  | saveMessages (sessionId : String) (msgs : List PMsg)
  | updateSession (sessionId : String)
  | createSession (sessionId : String)
deriving DecidableEq, Repr

/-- A write (persistence) effect: everything except the probe and the
model call. -/
def Effect.isWrite : Effect → Bool
  | .probeLocalProvider => false
  | .modelCall => false
  | .saveMessages _ _ => true
  | .updateSession _ => true
  | .createSession _ => true

/-- The `messages` field of the main chat endpoint's body:
missing, present but not an array, or an array. -/
inductive MessagesField where
  | missing
  | notArray
  | arr (l : List UIMsg)
deriving DecidableEq, Repr

/-- Request body of the main chat endpoint (`route.ts` line 14). -/
structure ChatBody where
  messages : MessagesField
  sessionId : Option String
  valyuAccessToken : Option String
  cardsFormat : Bool
deriving Repr

/-- Per-request environment of the main chat endpoint: deployment mode,
credential availability, the authenticated user (if any), the
local-inference headers, and the probe outcome. -/
structure ChatEnv where
  isSelfHosted : Bool
  hasOpenAIKey : Bool
  userId : Option String
  localEnabled : Bool
  localProvider : LocalProvider
  userPreferredModel : Option String
  probe : ProbeOutcome

/-- Outcome of the main chat endpoint: an early JSON error with status
and discriminator, or the multiplexed stream whose text deltas
concatenate to `text`. -/
inductive ChatOutcome where
  | jsonError (status : Nat) (error : String)
  | stream (text : String)
deriving DecidableEq, Repr

/-- The user-turn message saved before streaming
(`route.ts` lines 109-112): content is `lastMessage.parts || []`. -/
def chatUserPMsg (freshU : String) (lastMessage : UIMsg) : PMsg :=
  { id := freshU, role := .user,
    content := lastMessage.parts.getD [],
    processingTimeMs := none }

/-- The main chat endpoint `POST` (`route.ts` lines 10-268), as a pure
request transformer returning the outcome and the ordered effect trace.
`model`/`exec` drive the reasoning loop, `encode` stands for
`convertToModelMessages`, `stepLog` is the per-turn step log the tools
populate, `freshU`/`fresh` model `crypto.randomUUID()` draws, and
`genMsgId` models the AI SDK `generateId` used for the streamed
assistant message. Phases in source order: body validation (400), auth
check (401), provider resolution, user-turn save, the streaming loop,
and the `onFinish` persistence hook. -/
def chatPOST (env : ChatEnv) (body : ChatBody) (store : List PMsg)
    (model : List String → ModelStep) (exec : String → String)
    (encode : UIMsg → String) (stepLog : List StepEntry)
    (freshU : String) (fresh : Nat → String) (genMsgId : String)
    (ptime : Nat) : ChatOutcome × List Effect :=
  match body.messages with
  | .missing => (.jsonError 400 "INVALID_REQUEST", [])
  | .notArray => (.jsonError 400 "INVALID_REQUEST", [])
  | .arr l =>
      if l.length = 0 then (.jsonError 400 "INVALID_REQUEST", [])
      else if !env.isSelfHosted && body.valyuAccessToken.isNone then
        (.jsonError 401 "AUTH_REQUIRED", [])
      else
        let probeEff :=
          if env.isSelfHosted && env.localEnabled then
            [Effect.probeLocalProvider]
          else []
        let userWrites :=
          match env.userId, body.sessionId with
          | some _, some sid =>
              match l.getLast? with
              | some lastMessage =>
                  if lastMessage.role = Role.user then
                    [Effect.saveMessages sid
                       (getChatMessages store ++
                         [chatUserPMsg freshU lastMessage]),
                     Effect.updateSession sid]
                  else []
              | none => []
          | _, _ => []
        let text := (runLoop model exec chatRouteStepCap (l.map encode) "").1
        let allMessages :=
          l ++ [{ id := genMsgId, role := .assistant,
                  parts := some [.text text], contentStr := none,
                  contentArr := none : UIMsg }]
        let finishWrites :=
          match env.userId, body.sessionId with
          | some _, some sid =>
              [Effect.saveMessages sid
                 (onFinishMessagesToSave allMessages stepLog ptime fresh),
               Effect.updateSession sid]
          | _, _ => []
        (.stream text,
         probeEff ++ userWrites ++ [Effect.modelCall] ++ finishWrites)

/-- Outcome of the single-shot external endpoint. -/
inductive ExternalOutcome where
  | jsonError (status : Nat) (error : String)
  | jsonSuccess (response : String) (sessionId : String)
deriving DecidableEq, Repr

/-- The single-shot external endpoint `POST`
(`external/route.ts` lines 37-321) as a pure request transformer:
message validation (400), provider resolution (possibly a typed 500),
session id generation, session creation, history load, the collected
streaming loop, and the persistence block, returning the outcome and
the ordered effect trace. -/
def externalPOST (env : ChatEnv) (message : Option String)
    (providedSessionId : Option String) (modelParam : String)
    (disableLocal : Bool) (store : List PMsg)
    (model : List String → ModelStep) (exec : String → String)
    (freshSession freshU freshA : String) (ptime : Nat) :
    ExternalOutcome × List Effect :=
  match message with
  | none =>
      (.jsonError 400 "Message is required and must be a non-empty string",
       [])
  | some msg =>
      if strTrim msg = "" then
        (.jsonError 400
           "Message is required and must be a non-empty string", [])
      else
        let localEnabled := !disableLocal && env.localEnabled
        let probeEff :=
          if env.isSelfHosted && localEnabled && modelParam = "ollama" then
            [Effect.probeLocalProvider]
          else []
        match externalResolve env.isSelfHosted localEnabled
            env.hasOpenAIKey modelParam env.localProvider
            env.userPreferredModel env.probe with
        | .errorResponse status err => (.jsonError status err, probeEff)
        | .resolved _ _ _ =>
            let sessionId := providedSessionId.getD freshSession
            let sessionWrites :=
              match env.userId, providedSessionId with
              | some _, none => [Effect.createSession sessionId]
              | _, _ => []
            let text :=
              (runLoop model exec externalRouteStepCap [msg] "").1
            let persistWrites :=
              match env.userId with
              | some _ =>
                  [Effect.saveMessages sessionId
                     (externalStoreAfterUserSave store freshU msg),
                   Effect.saveMessages sessionId
                     (externalPersist store freshU msg freshA text ptime),
                   Effect.updateSession sessionId]
              | none => []
            (.jsonSuccess text sessionId,
             probeEff ++ sessionWrites ++ [Effect.modelCall] ++
               persistWrites)

/-! ## The card-generation endpoint (`/api/card`) -/

/-- Three consecutive backticks at the head of the list (a Markdown
code fence). -/
def isTripleBT : List Char → Bool
  | a :: b :: c :: _ => a = btChar && b = btChar && c = btChar
  | _ => false

/-- Lazy capture of the regex `([\s\S]*?)` up to the next closing
fence: collect characters until the first occurrence of three
backticks; `none` when no closing fence follows. -/
def takeToFence : List Char → Option (List Char)
  | [] => none
  | c :: rest =>
      if isTripleBT (c :: rest) then some []
      else (takeToFence rest).map (fun l => c :: l)

/-- The optional `json` tag after the opening fence
(regex `(?:json)?`). -/
def dropJsonTag : List Char → List Char
  | 'j' :: 's' :: 'o' :: 'n' :: rest => rest
  | l => l

/-- Embedding of `text.match(/` ``` `(?:json)?\s*([\s\S]*?)` ``` `/)`
(`route.ts` card handler line 355): search for the first opening fence
from which a closing fence is reachable and return the lazily captured
text between them after the optional `json` tag and whitespace. -/
def fenceSearch : List Char → Option (List Char)
  | [] => none
  | c :: rest =>
      if isTripleBT (c :: rest) then
        match takeToFence (dropWSL (dropJsonTag (rest.drop 2))) with
        | some cap => some cap
        | none => fenceSearch rest
      else fenceSearch rest

/-- The last index of a closing brace. -/
def lastRBraceIdx (l : List Char) : Option Nat :=
  match l.reverse.findIdx? (fun c => c = rbraceChar) with
  | some k => some (l.length - 1 - k)
  | none => none

/-- The JSON-extraction slicing of the card handler (`route.ts` card
handler lines 354-360): start from the trimmed text or the trimmed
fence capture; slice from the first opening brace when one exists; then
truncate after the last closing brace — but only when its index in the
*sliced* string exceeds the opening brace's index in the *unsliced*
string, exactly as the source compares `lastBrace > firstBrace` across
the reassignment (both indices are `-1` when absent). -/
def extractJsonChars (text : List Char) : List Char :=
  let j0 :=
    match fenceSearch text with
    | some cap => trimChars cap
    | none => trimChars text
  let fb : Int :=
    match j0.findIdx? (fun c => c = lbraceChar) with
    | some i => (i : Int)
    | none => -1
  let j1 := if 0 ≤ fb then j0.drop fb.toNat else j0
  let lb : Int :=
    match lastRBraceIdx j1 with
    | some i => (i : Int)
    | none => -1
  if fb < lb then j1.take (lb.toNat + 1) else j1

/-- A parsed JSON value, restricted to what the card shape needs:
strings are distinguished (the handler tests `typeof === 'string'`);
every other primitive is collapsed. -/
inductive JVal where
  | jstr (s : String)
  | jother
deriving DecidableEq, Repr

/-- JSON escape mapping (restricted: `\n`, `\t`, `\r` and
identity for quote, backslash, slash). -/
def escChar (c : Char) : Char :=
  if c = 'n' then Char.ofNat 10
  else if c = 't' then Char.ofNat 9
  else if c = 'r' then Char.ofNat 13
  else c

/-- Parse a JSON string body (after the opening quote), fuel-bounded. -/
def parseJString : Nat → List Char → List Char →
    Option (String × List Char)
  | 0, _, _ => none
  | _, [], _ => none
  | fuel + 1, c :: rest, acc =>
      if c = '"' then some (⟨acc.reverse⟩, rest)
      else if c = '\\' then
        match rest with
        | [] => none
        | e :: rest2 => parseJString fuel rest2 (escChar e :: acc)
      else parseJString fuel rest (c :: acc)

/-- Characters of a JSON number. -/
def isNumChar (c : Char) : Bool :=
  c.isDigit || c = '-' || c = '+' || c = '.' || c = 'e' || c = 'E'

/-- Parse one JSON value: a string, a number, or a literal
(`true` / `false` / `null`). -/
def parseJValue (fuel : Nat) (l : List Char) :
    Option (JVal × List Char) :=
  match dropWSL l with
  | [] => none
  | c :: rest =>
      if c = '"' then
        (parseJString fuel rest []).map (fun p => (.jstr p.1, p.2))
      else if chPrefix "true".data (c :: rest) then
        some (.jother, (c :: rest).drop 4)
      else if chPrefix "false".data (c :: rest) then
        some (.jother, (c :: rest).drop 5)
      else if chPrefix "null".data (c :: rest) then
        some (.jother, (c :: rest).drop 4)
      else
        match (c :: rest).span isNumChar with
        | (num, rest2) => if num.isEmpty then none else some (.jother, rest2)

/-- Parse the members of a JSON object (after the opening brace),
fuel-bounded. -/
def parseJMembers : Nat → List Char → List (String × JVal) →
    Option (List (String × JVal) × List Char)
  | 0, _, _ => none
  | fuel + 1, l, acc =>
      match dropWSL l with
      | [] => none
      | c :: rest =>
          if c = '"' then
            match parseJString fuel rest [] with
            | none => none
            | some (key, rest2) =>
                match dropWSL rest2 with
                | ':' :: rest3 =>
                    match parseJValue fuel rest3 with
                    | none => none
                    | some (v, rest4) =>
                        match dropWSL rest4 with
                        | ',' :: rest5 =>
                            parseJMembers fuel rest5 (acc ++ [(key, v)])
                        | d :: rest5 =>
                            if d = rbraceChar then
                              some (acc ++ [(key, v)], rest5)
                            else none
                        | [] => none
                | _ => none
          else none

/-- Modelled from the spec: `JSON.parse` (an ECMAScript builtin,
not part of this repository), restricted to flat objects whose values
are strings or non-string primitives — the fragment the card shape
`\x7b"title", "emoji", "content"\x7d` lives in. `none` models the
thrown `SyntaxError`. Duplicate keys follow the builtin (last wins, via
`lookupJField` below). Trailing non-whitespace is rejected. -/
def jsonParse (s : String) : Option (List (String × JVal)) :=
  let l := dropWSL s.data
  match l with
  | [] => none
  | c :: rest =>
      if c = lbraceChar then
        match dropWSL rest with
        | d :: rest2 =>
            if d = rbraceChar then
              if dropWSL rest2 = [] then some [] else none
            else
              match parseJMembers (s.data.length + 8) rest [] with
              | some (obj, rest3) =>
                  if dropWSL rest3 = [] then some obj else none
              | none => none
        | [] => none
      else none

/-- Field lookup on a parsed object; JavaScript object semantics give
the last duplicate key. -/
def lookupJField (obj : List (String × JVal)) (key : String) :
    Option JVal :=
  (obj.reverse.find? (fun p => p.1 = key)).map (fun p => p.2)

/-- `typeof parsed.title === 'string' ? parsed.title.trim() : ''`
(card handler lines 363-364). -/
def strFieldOrEmpty (obj : List (String × JVal)) (key : String) :
    String :=
  match lookupJField obj key with
  | some (.jstr s) => strTrim s
  | _ => ""

/-- The default emoji of the card handler (line 365). -/
def emojiDefault : String := "📰"

/-- `typeof parsed.emoji === 'string' ? parsed.emoji.trim() || '📰' :
'📰'` (card handler line 365). -/
def emojiField (obj : List (String × JVal)) : String :=
  match lookupJField obj "emoji" with
  | some (.jstr s) => if strTrim s = "" then emojiDefault else strTrim s
  | _ => emojiDefault

/-- Outcome of the card-generation endpoint. -/
inductive CardOutcome where
  | ok (title emoji content ticker : String)
  | err (status : Nat) (error : String)
deriving DecidableEq, Repr

/-- HTTP status of a card outcome (`200` on success). -/
def cardStatus : CardOutcome → Nat
  | .ok _ _ _ _ => 200
  | .err status _ => status

/-- The card-generation endpoint `POST` (card handler lines 332-386):
validate the symbol (400), run the single-shot completion (its awaited
text is the `modelText` input), reject empty text (502), extract and
parse the JSON (a parse failure throws and lands in the generic catch,
a 500), reject a parsed object without usable title and content (502),
and otherwise return the card. -/
def cardPOST (symbol : Option String) (modelText : String) :
    CardOutcome :=
  match symbol with
  | none => .err 400 "symbol is required"
  | some sym =>
      if strTrim sym = "" then .err 400 "symbol is required"
      else
        let ticker := strUpper (strTrim sym)
        if strTrim modelText = "" then
          .err 502 "Empty response from model"
        else
          match jsonParse ⟨extractJsonChars modelText.data⟩ with
          | none => .err 500 "Unexpected token in JSON"
          | some obj =>
              let title := strFieldOrEmpty obj "title"
              let content := strFieldOrEmpty obj "content"
              let emoji := emojiField obj
              if title = "" ∨ content = "" then
                .err 502 "Model did not return valid title and content"
              else .ok title emoji content ticker

/-! ## Claim theorems -/

/-- C1: at every entry point the number of model-reasoning rounds never
exceeds that entry point's configured cap; the caps are 10 (main chat
endpoint), 15 (single-shot external endpoint) and 10
(external-completion helper), all within 10-15; and when a stub model
keeps requesting tools the loop still terminates at the cap and returns
the text accumulated so far (it extends the accumulator; no error
outcome exists). -/
theorem claim_C1_step_caps (cap : Nat)
    (hcap : cap = chatRouteStepCap ∨ cap = externalRouteStepCap ∨
      cap = externalCompletionStepCap) :
    (10 ≤ cap ∧ cap ≤ 15) ∧
    ∀ (model : List String → ModelStep) (exec : String → String)
      (ctx : List String) (acc : String),
      (runLoop model exec cap ctx acc).2 ≤ cap ∧
      ((∀ c, (model c).toolCalls ≠ []) →
        (runLoop model exec cap ctx acc).2 = cap ∧
        ∃ s, (runLoop model exec cap ctx acc).1 = acc ++ s) := by
  constructor
  · rcases hcap with h | h | h <;> subst h <;>
      simp [chatRouteStepCap, externalRouteStepCap,
        externalCompletionStepCap]
  · intro model exec ctx acc
    refine ⟨runLoop_rounds_le model exec cap ctx acc, fun hstub => ?_⟩
    exact ⟨runLoop_stub_exhausts model exec hstub cap ctx acc,
      runLoop_acc_prefix model exec cap ctx acc⟩

/-- Witness for C1: the main chat endpoint's cap with a stub model that
always requests a tool; the loop stops after exactly 10 rounds with the
ten text deltas concatenated. -/
theorem claim_C1_step_caps_witness :
    ((10 ≤ chatRouteStepCap ∧ chatRouteStepCap ≤ 15) ∧
      (runLoop (fun _ => ⟨"t", ["tool"]⟩) (fun s => s) chatRouteStepCap
        [] "").2 = chatRouteStepCap) ∧
    runLoop (fun _ => ⟨"t", ["tool"]⟩) (fun s => s) chatRouteStepCap
      [] "" = ("tttttttttt", 10) := by
  have h := claim_C1_step_caps chatRouteStepCap (Or.inl rfl)
  have h2 := h.2 (fun _ => ⟨"t", ["tool"]⟩) (fun s => s) [] ""
  have h3 := h2.2 (fun c => by decide)
  exact ⟨⟨h.1, h3.1⟩, by decide⟩

/-- A resolution that produced a hosted (non-local) model handle. -/
def resolvedHosted : Resolution → Bool
  | .resolved h _ _ => h.isHosted
  | .errorResponse _ _ => false

/-- C2: whenever the local-provider probe fails (throw, or a listing
from which no model is selectable), provider selection does not throw:
the main chat route always resolves a hosted handle — the paid
credential OpenAI model when `OPENAI_API_KEY` is set, otherwise the
gateway alias — and the single-shot external route resolves the OpenAI
handle when the key is set and returns its explicit typed 500 error
exactly when no credential exists. -/
theorem claim_C2_fallback_no_throw (hasKey : Bool)
    (prov : LocalProvider) (up : Option String) (probe : ProbeOutcome)
    (hfail :
      probe.bind (selectLocalModel prov up chatPreferredModels) = none)
    (hfailExt :
      probe.bind (selectLocalModel prov up externalPreferredModels) =
        none) :
    resolvedHosted (chatResolve true true hasKey prov up probe) = true ∧
    (hasKey = true →
      (∃ info, chatResolve true true hasKey prov up probe =
        .resolved (.openaiModel "gpt-5.2-2025-12-11") info false) ∧
      (∃ info,
        externalResolve true true hasKey "ollama" prov up probe =
          .resolved (.openaiModel "gpt-5.2-2025-12-11") info false)) ∧
    (hasKey = false →
      (∃ a info, chatResolve true true hasKey prov up probe =
        .resolved (.gatewayModel a) info false) ∧
      externalResolve true true hasKey "ollama" prov up probe =
        .errorResponse 500
          "Local model unavailable and OpenAI API key not configured") := by
  cases probe with
  | none =>
      cases hasKey with
      | false =>
          refine ⟨by simp [chatResolve, chatHostedFallback,
            resolvedHosted, ModelHandle.isHosted], by simp, fun _ => ?_⟩
          constructor
          · exact ⟨"openai/gpt-5.2-2025-12-11",
              "Vercel AI Gateway (gpt-5.2) - Self-Hosted Fallback",
              by simp [chatResolve, chatHostedFallback]⟩
          · simp [externalResolve]
      | true =>
          refine ⟨by simp [chatResolve, chatHostedFallback,
            resolvedHosted, ModelHandle.isHosted], fun _ => ?_, by simp⟩
          constructor
          · exact ⟨"OpenAI (gpt-5.2) - Self-Hosted Fallback",
              by simp [chatResolve, chatHostedFallback]⟩
          · exact ⟨"OpenAI (gpt-5.2) - Fallback",
              by simp [externalResolve]⟩
  | some names =>
      have hfail2 :
          selectLocalModel prov up chatPreferredModels names = none :=
        hfail
      have hfailExt2 :
          selectLocalModel prov up externalPreferredModels names = none :=
        hfailExt
      cases hasKey with
      | false =>
          refine ⟨?_, by simp, fun _ => ?_⟩
          · simp [chatResolve, hfail2, chatHostedFallback, resolvedHosted,
              ModelHandle.isHosted]
          constructor
          · exact ⟨"openai/gpt-5.2-2025-12-11",
              "Vercel AI Gateway (gpt-5.2) - Self-Hosted Fallback",
              by simp [chatResolve, hfail2, chatHostedFallback]⟩
          · simp [externalResolve, hfailExt2]
      | true =>
          refine ⟨?_, fun _ => ?_, by simp⟩
          · simp [chatResolve, hfail2, chatHostedFallback, resolvedHosted,
              ModelHandle.isHosted]
          constructor
          · exact ⟨"OpenAI (gpt-5.2) - Self-Hosted Fallback",
              by simp [chatResolve, hfail2, chatHostedFallback]⟩
          · exact ⟨"OpenAI (gpt-5.2) - Fallback",
              by simp [externalResolve, hfailExt2]⟩

/-- Witness for C2: a probe that timed out (`none`), with a configured
OpenAI key: both routes resolve a hosted handle. -/
theorem claim_C2_fallback_no_throw_witness :
    (resolvedHosted (chatResolve true true true .ollama none none) =
      true) ∧
    externalResolve true true true "ollama" .ollama none none =
      .resolved (.openaiModel "gpt-5.2-2025-12-11")
        "OpenAI (gpt-5.2) - Fallback" false := by
  have h := claim_C2_fallback_no_throw true .ollama none none
    (by decide) (by decide)
  refine ⟨h.1, ?_⟩
  decide

/-- Counterexample to C3: on a successful Ollama probe the source does
not filter embedding-only models. For the listing
`["nomic-embed-text", "mistral-foo"]` with no user preference, the
source selects `nomic-embed-text` (the first listed model), while the
claimed procedure filters it out and selects `mistral-foo`. -/
theorem claim_C3_counterexample :
    selectLocalModel .ollama none chatPreferredModels
        ["nomic-embed-text", "mistral-foo"] = some "nomic-embed-text" ∧
    claimSelectLocalModel none chatPreferredModels
        ["nomic-embed-text", "mistral-foo"] = some "mistral-foo" ∧
    selectLocalModel .ollama none chatPreferredModels
        ["nomic-embed-text", "mistral-foo"] ≠
      claimSelectLocalModel none chatPreferredModels
        ["nomic-embed-text", "mistral-foo"] := by
  refine ⟨by decide, by decide, by decide⟩

/-- C3 (amended): the claimed selection procedure (filter
embedding-only models, then exact user-requested name, then the
preference-ordered substring match, then the first listed model) is
what the source computes whenever the provider is LM Studio — the only
provider whose listing the source filters — or the listing contains no
embedding-named models; and on the effective listing an exactly-present
user-requested model is always chosen. -/
theorem claim_C3_selection_amended (prov : LocalProvider)
    (up : Option String) (prefs models : List String)
    (h : prov = .lmstudio ∨ models.all embedOkName = true) :
    selectLocalModel prov up prefs models =
      claimSelectLocalModel up prefs models ∧
    (∀ u, up = some u →
      (effectiveModels prov models).contains u = true →
      selectLocalModel prov up prefs models = some u) := by
  constructor
  · rcases h with h | h
    · subst h; rfl
    · have hfilter : models.filter embedOkName = models :=
        List.filter_eq_self.mpr (by
          intro a ha
          exact (List.all_eq_true.mp h) a ha)
      cases prov with
      | lmstudio =>
          simp [selectLocalModel, claimSelectLocalModel,
            effectiveModels, hfilter]
      | ollama =>
          simp [selectLocalModel, claimSelectLocalModel,
            effectiveModels, hfilter]
  · intro u hu hmem
    subst hu
    unfold selectLocalModel selectFromModels
    cases he : effectiveModels prov models with
    | nil => rw [he] at hmem; simp at hmem
    | cons m0 rest =>
        rw [he] at hmem
        have hm : u = m0 ∨ u ∈ rest := by simpa using hmem
        simp [hmem]
        intro h1 h2
        exact absurd hm (by simp [h1, h2])

/-- Witness for C3 (amended): an Ollama listing free of embedding
names, with the user-requested model present; source and claimed
procedure agree and both honour the request. -/
theorem claim_C3_selection_amended_witness :
    selectLocalModel .ollama (some "mistral-foo") chatPreferredModels
        ["llama3.2", "mistral-foo"] =
      claimSelectLocalModel (some "mistral-foo") chatPreferredModels
        ["llama3.2", "mistral-foo"] ∧
    selectLocalModel .ollama (some "mistral-foo") chatPreferredModels
        ["llama3.2", "mistral-foo"] = some "mistral-foo" := by
  have h := claim_C3_selection_amended .ollama (some "mistral-foo")
    chatPreferredModels ["llama3.2", "mistral-foo"] (Or.inr (by decide))
  exact ⟨h.1, h.2 "mistral-foo" rfl (by decide)⟩

/-- C4 (code-bug exhibit): in the single-shot external route the
user-turn save does persist the user turn, but the assistant-turn save
rebuilds the message list from the `existingMessages` constant read
*before* the user turn was appended, so the final persisted sequence
drops the user turn. Evaluated at an empty session: after `load`,
`appendUserTurn`, `appendAssistantTurn`, the store holds only the
assistant message. -/
theorem claim_C4_user_turn_dropped :
    (externalStoreAfterUserSave [] "u-id" "What is the price of AAPL?" =
      [externalUserPMsg "u-id" "What is the price of AAPL?"]) ∧
    (externalPersist [] "u-id" "What is the price of AAPL?" "a-id"
        "It trades at 150." 42 =
      [externalAssistantPMsg "a-id" "It trades at 150." 42]) ∧
    ((externalPersist [] "u-id" "What is the price of AAPL?" "a-id"
        "It trades at 150." 42).filter
          (fun msg => msg.role = Role.user) = []) := by
  refine ⟨by decide, by decide, by decide⟩

/-- C6: in the `onFinish` persistence mapping of the main chat route,
a message that is not at the last index keeps its content unchanged (it
never receives a step-log part); with an empty step log every message
keeps its content unchanged; and when the last message is an assistant
message and the step log is non-empty, exactly that message's content
is extended with the single step-log part. -/
theorem claim_C6_step_log_attachment (l : List UIMsg)
    (sl : List StepEntry) (pt : Nat) (fresh : Nat → String) (k : Nat)
    (m : UIMsg) (hk : l[k]? = some m) :
    (k + 1 < l.length →
      ∃ p, (onFinishMessagesToSave l sl pt fresh)[k]? = some p ∧
        p.content = contentToSave m) ∧
    (sl = [] →
      ∃ p, (onFinishMessagesToSave l sl pt fresh)[k]? = some p ∧
        p.content = contentToSave m) ∧
    (k = l.length - 1 → m.role = .assistant → sl ≠ [] →
      ∃ p, (onFinishMessagesToSave l sl pt fresh)[k]? = some p ∧
        p.content = contentToSave m ++ [.stepLogPart sl]) := by
  have hr0 := onFinishMessagesToSave_getElem? l sl pt fresh k
  rw [hk] at hr0
  have hr : (onFinishMessagesToSave l sl pt fresh)[k]? =
      some (saveOne sl pt fresh l.length k m) := hr0
  refine ⟨fun hlt => ⟨_, hr, ?_⟩, fun hsl => ⟨_, hr, ?_⟩,
    fun hlast hrole hne => ⟨_, hr, ?_⟩⟩
  · have hklen : k < l.length := by
      by_contra hge
      rw [List.getElem?_eq_none (by omega)] at hk
      exact Option.noConfusion hk
    have hne2 : ¬k = l.length - 1 := by omega
    simp only [saveOne]
    rw [if_neg (by rintro ⟨⟨_, hk2⟩, _⟩; exact hne2 hk2)]
  · simp only [saveOne]
    rw [if_neg (by rintro ⟨_, h0⟩; rw [hsl] at h0; simp at h0)]
  · simp only [saveOne]
    rw [if_pos ⟨⟨hrole, hlast⟩, List.length_pos.mpr hne⟩]

/-- C7: every message persisted by the `onFinish` mapping carries a
canonical-format id: an id already matching the UUID format is
preserved unchanged, and a malformed id is replaced by the freshly
generated id for that index (assumed valid, as `crypto.randomUUID`
guarantees), never written verbatim. -/
theorem claim_C7_id_replacement (l : List UIMsg) (sl : List StepEntry)
    (pt : Nat) (fresh : Nat → String) (k : Nat) (m : UIMsg)
    (hk : l[k]? = some m) (hfresh : ∀ i, isUUID (fresh i) = true) :
    ∃ p, (onFinishMessagesToSave l sl pt fresh)[k]? = some p ∧
      isUUID p.id = true ∧
      (isUUID m.id = true → p.id = m.id) ∧
      (isUUID m.id = false → p.id = fresh k) := by
  have hr0 := onFinishMessagesToSave_getElem? l sl pt fresh k
  rw [hk] at hr0
  have hr : (onFinishMessagesToSave l sl pt fresh)[k]? =
      some (saveOne sl pt fresh l.length k m) := hr0
  refine ⟨_, hr, ?_, ?_, ?_⟩
  · simp only [saveOne]
    cases hid : isUUID m.id with
    | true => simp [hid]
    | false => simpa [hid] using hfresh k
  · intro hid; simp [saveOne, hid]
  · intro hid; simp [saveOne, hid]

/-- Concrete step-log entry used by witnesses. -/
def wStep : StepEntry :=
  { phase := true, toolName := "financeSearch", detail := "d",
    nextStep := none, ts := 1 }

/-- Concrete user turn used by witnesses. -/
def wUserMsg : UIMsg :=
  { id := "not-a-uuid", role := .user, parts := some [.text "q"],
    contentStr := none, contentArr := none }

/-- Concrete assistant turn used by witnesses. -/
def wAsstMsg : UIMsg :=
  { id := "123e4567-e89b-12d3-a456-426614174000", role := .assistant,
    parts := some [.text "ans"], contentStr := none, contentArr := none }

/-- Concrete fresh-UUID source used by witnesses. -/
def wFresh : Nat → String := fun _ =>
  "00000000-0000-0000-0000-000000000000"

/-- Witness for C6: a two-message turn (user then assistant) with one
step-log entry; the non-final message's content is unchanged and the
final assistant message's content gains exactly the step-log part. -/
theorem claim_C6_step_log_attachment_witness :
    (∃ p, (onFinishMessagesToSave [wUserMsg, wAsstMsg] [wStep] 7
        wFresh)[0]? = some p ∧ p.content = [.text "q"]) ∧
    (∃ p, (onFinishMessagesToSave [wUserMsg, wAsstMsg] [wStep] 7
        wFresh)[1]? = some p ∧
      p.content = [.text "ans", .stepLogPart [wStep]]) := by
  have h1 := claim_C6_step_log_attachment [wUserMsg, wAsstMsg] [wStep]
    7 wFresh 0 wUserMsg (by decide)
  have h2 := claim_C6_step_log_attachment [wUserMsg, wAsstMsg] [wStep]
    7 wFresh 1 wAsstMsg (by decide)
  obtain ⟨p1, hp1, hc1⟩ := h1.1 (by decide)
  obtain ⟨p2, hp2, hc2⟩ := h2.2.2 (by decide) (by decide) (by decide)
  exact ⟨⟨p1, hp1, by rw [hc1]; decide⟩, ⟨p2, hp2, by rw [hc2]; decide⟩⟩

/-- Witness for C7: the malformed id `not-a-uuid` is replaced by the
fresh UUID; the well-formed id is preserved unchanged. -/
theorem claim_C7_id_replacement_witness :
    (∃ p, (onFinishMessagesToSave [wUserMsg, wAsstMsg] [] 7
        wFresh)[0]? = some p ∧ isUUID p.id = true ∧
      p.id = "00000000-0000-0000-0000-000000000000") ∧
    (∃ p, (onFinishMessagesToSave [wUserMsg, wAsstMsg] [] 7
        wFresh)[1]? = some p ∧
      p.id = "123e4567-e89b-12d3-a456-426614174000") := by
  have hf0 : isUUID "00000000-0000-0000-0000-000000000000" = true := by
    decide
  have hf : ∀ i, isUUID (wFresh i) = true := fun _ => hf0
  have h1 := claim_C7_id_replacement [wUserMsg, wAsstMsg] [] 7 wFresh
    0 wUserMsg (by decide) hf
  have h2 := claim_C7_id_replacement [wUserMsg, wAsstMsg] [] 7 wFresh
    1 wAsstMsg (by decide) hf
  obtain ⟨p1, hp1, hv1, _, hrep1⟩ := h1
  obtain ⟨p2, hp2, _, hpres2, _⟩ := h2
  refine ⟨⟨p1, hp1, hv1, ?_⟩, ⟨p2, hp2, ?_⟩⟩
  · rw [hrep1 (by decide)]; decide
  · rw [hpres2 (by decide)]; decide

/-- Counterexample to C5: a model response containing no JSON object at
all makes `JSON.parse` throw, which lands in the handler's generic
catch — an HTTP 500, not the 502 the claim states. -/
theorem claim_C5_counterexample :
    cardPOST (some "AAPL") "there is no json object here" =
      .err 500 "Unexpected token in JSON" ∧
    cardStatus (cardPOST (some "AAPL") "there is no json object here") =
      500 := by
  refine ⟨by decide, by decide⟩

/-- C5 (amended): with a valid symbol, the card endpoint returns 502
for an empty model text and for a parsed JSON object lacking a usable
string title or content; it returns the parsed card (trimmed title and
content, emoji or its default) on a JSON object with nonempty string
title and content; but when the extracted text is not parseable JSON at
all the parse error propagates to the generic catch and the endpoint
returns 500, not 502. -/
theorem claim_C5_card_parse_amended (sym : String)
    (hsymok : ¬strTrim sym = "") (modelText : String) :
    (strTrim modelText = "" →
      cardPOST (some sym) modelText =
        .err 502 "Empty response from model") ∧
    (¬strTrim modelText = "" →
      jsonParse ⟨extractJsonChars modelText.data⟩ = none →
      cardPOST (some sym) modelText =
        .err 500 "Unexpected token in JSON" ∧
      cardStatus (cardPOST (some sym) modelText) ≠ 502) ∧
    (∀ obj, ¬strTrim modelText = "" →
      jsonParse ⟨extractJsonChars modelText.data⟩ = some obj →
      ((strFieldOrEmpty obj "title" = "" ∨
          strFieldOrEmpty obj "content" = "") →
        cardPOST (some sym) modelText =
          .err 502 "Model did not return valid title and content") ∧
      (¬strFieldOrEmpty obj "title" = "" →
        ¬strFieldOrEmpty obj "content" = "" →
        cardPOST (some sym) modelText =
          .ok (strFieldOrEmpty obj "title") (emojiField obj)
            (strFieldOrEmpty obj "content") (strUpper (strTrim sym)))) := by
  refine ⟨fun hempty => ?_, fun hne hparse => ?_,
    fun obj hne hparse => ⟨fun hbad => ?_, fun ht hc => ?_⟩⟩
  · simp only [cardPOST]
    rw [if_neg hsymok, if_pos hempty]
  · simp only [cardPOST]
    rw [if_neg hsymok, if_neg hne, hparse]
    simp [cardStatus]
  · simp only [cardPOST]
    rw [if_neg hsymok, if_neg hne, hparse]
    simp only []
    rw [if_pos hbad]
  · simp only [cardPOST]
    rw [if_neg hsymok, if_neg hne, hparse]
    simp only []
    rw [if_neg (by rintro (h | h); exact ht h; exact hc h)]

/-- Witness for C5 (amended): a code-fenced JSON card parses and the
endpoint returns the card; its fields equal the parsed ones. -/
theorem claim_C5_card_parse_amended_witness :
    jsonParse ⟨extractJsonChars
      "```json\n\x7b\"title\":\"T\",\"emoji\":\"E\",\"content\":\"C\"\x7d\n```".data⟩ =
      some [("title", .jstr "T"), ("emoji", .jstr "E"),
        ("content", .jstr "C")] ∧
    cardPOST (some "AAPL")
      "```json\n\x7b\"title\":\"T\",\"emoji\":\"E\",\"content\":\"C\"\x7d\n```" =
      .ok "T" "E" "C" "AAPL" := by
  have hp : jsonParse ⟨extractJsonChars
      "```json\n\x7b\"title\":\"T\",\"emoji\":\"E\",\"content\":\"C\"\x7d\n```".data⟩ =
      some [("title", .jstr "T"), ("emoji", .jstr "E"),
        ("content", .jstr "C")] := by decide
  have h := claim_C5_card_parse_amended "AAPL" (by decide)
    "```json\n\x7b\"title\":\"T\",\"emoji\":\"E\",\"content\":\"C\"\x7d\n```"
  have h2 := (h.2.2 [("title", .jstr "T"), ("emoji", .jstr "E"),
    ("content", .jstr "C")] (by decide) hp).2 (by decide) (by decide)
  refine ⟨hp, ?_⟩
  rw [h2]
  decide

/-- Counterexample to C8: the single-shot external endpoint is a
text-only output channel (it returns `\x7bsuccess, response\x7d` JSON text),
yet its tool set is the full registry — `createChart` is not
excluded there. -/
theorem claim_C8_counterexample :
    "createChart" ∈ (formatSelect .externalSingleShot).2 ∧
    (formatSelect .externalSingleShot).2 = externalRouteTools := by
  refine ⟨by decide, by decide⟩

/-- C8 (amended): the response-format selection is a fixed mapping from
the format token to a system instruction and tool subset; the chat and
cards formats of the main endpoint share the registry minus
`createChart` while differing in instruction, and the
external-completion helper also excludes `createChart`; but the
single-shot external endpoint passes the full registry, `createChart`
included. -/
theorem claim_C8_format_tools_amended :
    (formatSelect .chat).2 = chatRouteTools ∧
    (formatSelect .cards).2 = chatRouteTools ∧
    "createChart" ∉ (formatSelect .chat).2 ∧
    "createChart" ∉ (formatSelect .cards).2 ∧
    "createChart" ∉ externalCompletionTools ∧
    (formatSelect .chat).1 ≠ (formatSelect .cards).1 ∧
    (formatSelect .chat).2 = (formatSelect .cards).2 ∧
    "createChart" ∈ financeToolNames := by
  refine ⟨by decide, by decide, by decide, by decide, by decide,
    by decide, by decide, by decide⟩

/-- C9: a request to the main chat endpoint whose `messages` field is
missing, not an array, or an empty array is answered with HTTP 400 and
the `INVALID_REQUEST` discriminator, with an empty effect trace — no
provider probe, no persistence write and no model call has happened. -/
theorem claim_C9_messages_validation (env : ChatEnv) (body : ChatBody)
    (store : List PMsg) (model : List String → ModelStep)
    (exec : String → String) (encode : UIMsg → String)
    (stepLog : List StepEntry) (freshU : String) (fresh : Nat → String)
    (genMsgId : String) (ptime : Nat)
    (hbad : body.messages = .missing ∨ body.messages = .notArray ∨
      body.messages = .arr []) :
    chatPOST env body store model exec encode stepLog freshU fresh
      genMsgId ptime = (.jsonError 400 "INVALID_REQUEST", []) := by
  rcases hbad with h | h | h <;> simp [chatPOST, h]

/-- Concrete environment used by pipeline witnesses: self-hosted, key
configured, anonymous user, local inference disabled. -/
def wEnv : ChatEnv :=
  { isSelfHosted := true, hasOpenAIKey := true, userId := none,
    localEnabled := false, localProvider := .ollama,
    userPreferredModel := none, probe := none }

/-- Witness for C9: a body with a missing `messages` field is rejected
with 400 `INVALID_REQUEST` and no effects. -/
theorem claim_C9_messages_validation_witness :
    chatPOST wEnv
      { messages := .missing, sessionId := none,
        valyuAccessToken := none, cardsFormat := false }
      [] (fun _ => ⟨"t", []⟩) (fun s => s) (fun _ => "m") [] "u"
      (fun _ => "f") "g" 0 = (.jsonError 400 "INVALID_REQUEST", []) := by
  exact claim_C9_messages_validation wEnv
    { messages := .missing, sessionId := none, valyuAccessToken := none,
      cardsFormat := false }
    [] (fun _ => ⟨"t", []⟩) (fun s => s) (fun _ => "m") [] "u"
    (fun _ => "f") "g" 0 (Or.inl rfl)

theorem externalResolve_key_resolved (isSelfHosted localEnabled : Bool)
    (modelParam : String) (prov : LocalProvider) (up : Option String)
    (probe : ProbeOutcome) :
    ∃ h info st, externalResolve isSelfHosted localEnabled true
      modelParam prov up probe = .resolved h info st := by
  unfold externalResolve
  split
  · cases probe with
    | none =>
        exact ⟨.openaiModel "gpt-5.2-2025-12-11",
          "OpenAI (gpt-5.2) - Fallback", false, by simp⟩
    | some names =>
        cases hsel : selectLocalModel prov up externalPreferredModels
            names with
        | some n =>
            exact ⟨.localModel prov n,
              providerName prov ++ " (" ++ n ++ ") - Self-Hosted", false,
              by simp [hsel]⟩
        | none =>
            exact ⟨.openaiModel "gpt-5.2-2025-12-11",
              "OpenAI (gpt-5.2) - Fallback", false, by simp [hsel]⟩
  · exact ⟨.openaiModel "gpt-5.2-2025-12-11", "OpenAI (gpt-5.2)", false,
      by simp⟩

/-- C10: when there is no authenticated user or no session identifier,
neither route performs any persistence write — no user-turn save, no
assistant-turn save, no session creation or timestamp bump — while the
response is still produced unchanged: the main chat endpoint streams
exactly the loop's text, and (for an anonymous user with a configured
key) the single-shot external endpoint returns its normal success JSON
with the loop's text. -/
theorem claim_C10_no_persistence_when_anonymous (env : ChatEnv)
    (body : ChatBody) (store : List PMsg)
    (model : List String → ModelStep) (exec : String → String)
    (encode : UIMsg → String) (stepLog : List StepEntry)
    (freshU : String) (fresh : Nat → String) (genMsgId : String)
    (ptime : Nat) (l : List UIMsg)
    (hmsgs : body.messages = .arr l) (hne : ¬l = [])
    (hauth : env.isSelfHosted = true ∨ ¬body.valyuAccessToken = none)
    (hanon : env.userId = none ∨ body.sessionId = none) :
    (∀ e ∈ (chatPOST env body store model exec encode stepLog freshU
        fresh genMsgId ptime).2, e.isWrite = false) ∧
    (chatPOST env body store model exec encode stepLog freshU fresh
        genMsgId ptime).1 =
      .stream ((runLoop model exec chatRouteStepCap (l.map encode)
        "").1) ∧
    (∀ msg providedSid modelParam disableLocal
        (storeE : List PMsg) freshS freshU2 freshA ptimeE,
      env.userId = none → ¬strTrim msg = "" →
      env.hasOpenAIKey = true →
      (∀ e ∈ (externalPOST env (some msg) providedSid modelParam
          disableLocal storeE model exec freshS freshU2 freshA
          ptimeE).2, e.isWrite = false) ∧
      (externalPOST env (some msg) providedSid modelParam disableLocal
          storeE model exec freshS freshU2 freshA ptimeE).1 =
        .jsonSuccess ((runLoop model exec externalRouteStepCap [msg]
          "").1) (providedSid.getD freshS)) := by
  have hlen : ¬l.length = 0 := by simpa using hne
  have hauthb :
      (!env.isSelfHosted && body.valyuAccessToken.isNone) = false := by
    rcases hauth with h | h
    · simp [h]
    · have hn : body.valyuAccessToken.isNone = false := by
        cases ht : body.valyuAccessToken with
        | none => exact absurd ht h
        | some _ => rfl
      simp [hn]
  refine ⟨?_, ?_, ?_⟩
  · rcases hanon with h | h
    · simp only [chatPOST, hmsgs, h]
      rw [if_neg hlen]
      simp only [hauthb, Bool.false_eq_true, if_false]
      intro e he
      simp only [List.mem_append, List.mem_singleton] at he
      rcases he with ((he | he) | he) | he
      · split at he <;> simp_all [Effect.isWrite]
      · simp at he
      · rw [he]; rfl
      · simp at he
    · cases hu : env.userId with
      | none =>
          simp only [chatPOST, hmsgs, hu]
          rw [if_neg hlen]
          simp only [hauthb, Bool.false_eq_true, if_false]
          intro e he
          simp only [List.mem_append, List.mem_singleton] at he
          rcases he with ((he | he) | he) | he
          · split at he <;> simp_all [Effect.isWrite]
          · simp at he
          · rw [he]; rfl
          · simp at he
      | some uid =>
          simp only [chatPOST, hmsgs, hu, h]
          rw [if_neg hlen]
          simp only [hauthb, Bool.false_eq_true, if_false]
          intro e he
          simp only [List.mem_append, List.mem_singleton] at he
          rcases he with ((he | he) | he) | he
          · split at he <;> simp_all [Effect.isWrite]
          · simp at he
          · rw [he]; rfl
          · simp at he
  · simp only [chatPOST, hmsgs]
    rw [if_neg hlen]
    simp only [hauthb, Bool.false_eq_true, if_false]
  · intro msg providedSid modelParam disableLocal storeE freshS freshU2
      freshA ptimeE huser hmsgne hkey
    obtain ⟨hh, hinfo, hst, hres⟩ := externalResolve_key_resolved
      env.isSelfHosted (!disableLocal && env.localEnabled) modelParam
      env.localProvider env.userPreferredModel env.probe
    rw [← hkey] at hres
    constructor
    · simp only [externalPOST]
      rw [if_neg hmsgne, hres]
      simp only [huser]
      intro e he
      simp only [List.mem_append, List.mem_singleton] at he
      rcases he with ((he | he) | he) | he
      · split at he <;> simp_all [Effect.isWrite]
      · simp at he
      · rw [he]; rfl
      · simp at he
    · simp only [externalPOST]
      rw [if_neg hmsgne, hres]

/-- Witness for C10: an anonymous request (no user) over both routes:
no write effect occurs and each route still returns its normal
response built from the loop's text. -/
theorem claim_C10_no_persistence_when_anonymous_witness :
    (∀ e ∈ (chatPOST wEnv
        { messages := .arr [wUserMsg], sessionId := none,
          valyuAccessToken := none, cardsFormat := false }
        [] (fun _ => ⟨"t", []⟩) (fun s => s) (fun _ => "m") [] "u"
        (fun _ => "f") "g" 0).2, e.isWrite = false) ∧
    chatPOST wEnv
        { messages := .arr [wUserMsg], sessionId := none,
          valyuAccessToken := none, cardsFormat := false }
        [] (fun _ => ⟨"t", []⟩) (fun s => s) (fun _ => "m") [] "u"
        (fun _ => "f") "g" 0 = (.stream "t", [.modelCall]) ∧
    externalPOST wEnv (some "hi") none "openai" true []
        (fun _ => ⟨"t", []⟩) (fun s => s) "s" "u2" "a2" 0 =
      (.jsonSuccess "t" "s", [.modelCall]) := by
  have h := claim_C10_no_persistence_when_anonymous wEnv
    { messages := .arr [wUserMsg], sessionId := none,
      valyuAccessToken := none, cardsFormat := false }
    [] (fun _ => ⟨"t", []⟩) (fun s => s) (fun _ => "m") [] "u"
    (fun _ => "f") "g" 0 [wUserMsg] rfl (by decide) (Or.inl rfl)
    (Or.inl rfl)
  exact ⟨h.1, by decide, by decide⟩
